import Mathlib

/-!
Verification of the gender-bias letter-analysis detectors.

The repository has three detectors (`partsofspeech`, `raises_doubt`,
`superlatives`), each exposing `get_report(doc) -> Report`.  The linguistic
toolkit (tokenisation, part-of-speech tagging, WordNet synset lookup) is an
external collaborator; the embedding takes its outputs as parameters:

  * `word_pos`  : the tagger's output, an ordered list of (token, tag) pairs;
  * `lemmaf s`  : the lemma names of the synset named `s`
                   (`wn.synset(s).lemma_names()`);
  * `hypof s`   : the names of the hyponym synsets of the synset named `s`;
  * `text`      : the document's raw character sequence (`doc.text()`).

Python-specific behaviour is modelled explicitly: out-of-range list
indexing raises (`Except.error "IndexError"`), index `-1` wraps to the last
element, and `re.finditer` on a syntactically invalid pattern raises
`re.error` (modelled by a group/class well-formedness scanner over the
constructed pattern string).
-/

namespace GenderBias

/-- An Issue: category label plus human-readable explanation
(`genderbias.detector.Issue`). -/
structure Issue where
  category : String
  message : String
deriving DecidableEq, Repr

/-- A Flag: character span (start inclusive, stop exclusive) over the raw
text plus its Issue (`genderbias.detector.Flag`). -/
structure Flag where
  start : Nat
  stop : Nat
  issue : Issue
deriving DecidableEq, Repr

/-- A Report: the detector's category name, its flags in insertion order and
the optional summary (`genderbias.detector.Report`). -/
structure Report where
  category : String
  flags : List Flag
  summary : Option String
deriving DecidableEq, Repr

deriving instance DecidableEq for Except

/-- Python `str.lower()`, character-wise (`Char.toLower` maps A-Z to a-z and
leaves everything else alone, as CPython does on the ASCII range these
detectors handle).  Defined over the character list so that proofs can
evaluate it. -/
def pyLower (s : String) : String :=
  ⟨s.data.map Char.toLower⟩

namespace Superlatives

/-- `superlatives_synsets` of `superlatives/__init__.py`, lines 52-54. -/
def superlatives_synsets : List String :=
  ["better.s.03", "estimable.s.02", "adept.s.01", "incredible.a.01", "greatest.s.01",
   "great.s.02", "excellent.s.01", "phenomenal.s.02", "fantastic.s.02", "ace.s.01",
   "ever.r.01", "most.r.01"]

/-- The tag read by `word_pos[count - 1][1]` (line 58).  Python indexing wraps
`-1` to the last element, so at `count = 0` the LAST pair's tag is read; for
`count ≥ 1` it is the preceding pair's tag.  `none` only in the state the
loop cannot reach (`count = 0` with an empty list, where Python would raise). -/
def pyPrevTag (word_pos : List (String × String)) (count : Nat) : Option String :=
  if count = 0 then (word_pos.getLast?).map Prod.snd
  else (word_pos.get? (count - 1)).map Prod.snd

/-- Inner loop of lines 56-59: for each synset, append the word when its
lemma list contains the word and the (Python-indexed) preceding tag is not
`PRP$`. -/
def supSynsetLoop (lemmaf : String → List String) (word_pos : List (String × String))
    (count : Nat) (word : String) : List String → List String
  | [] => []
  | s :: rest =>
      (if word ∈ lemmaf s then
        (if pyPrevTag word_pos count ≠ some "PRP$" then [word] else [])
       else []) ++ supSynsetLoop lemmaf word_pos count word rest

/-- Outer loop of line 55: `for count, word in enumerate(lowercase_text)`. -/
def supScanFrom (lemmaf : String → List String) (word_pos : List (String × String)) :
    List String → Nat → List String → List String
  | [], _, acc => acc
  | w :: rest, count, acc =>
      supScanFrom lemmaf word_pos rest (count + 1)
        (acc ++ supSynsetLoop lemmaf word_pos count w superlatives_synsets)

/-- `superlatives_in_text` after the scan of lines 55-59.  `lowercase_text`
(line 49) lower-cases every element of the tagged sequence. -/
def superlatives_in_text (lemmaf : String → List String)
    (word_pos : List (String × String)) : List String :=
  supScanFrom lemmaf word_pos (word_pos.map (fun p => pyLower p.1)) 0 []

/-- The serial-list loop of lines 74-78; `n` is `len(superlatives_in_text)`
(Python int, so the comparison is over `Int`). -/
def supJoinLoop (n : Int) : List String → Nat → String → String
  | [], _, acc => acc
  | w :: rest, count, acc =>
      supJoinLoop n rest (count + 1)
        (if (count : Int) < n - 1 then acc ++ w ++ ", " else acc ++ "and " ++ w)

/-- `superlatives_in_text_string` (lines 67-78): one word alone; two words
joined with " and "; otherwise the serial-comma loop. -/
def superlatives_in_text_string (l : List String) : String :=
  if l.length = 1 then l.getD 0 ""
  else if l.length = 2 then l.getD 0 "" ++ " and " ++ l.getD 1 ""
  else supJoinLoop (l.length : Int) l 0 ""

/-- The zero-count summary (lines 61-65). -/
def zero_count_summary : String :=
  "This document contains few or no superlatives "
    ++ "(best, most, greatest, etc) that could increase the strength "
    ++ "of the letter. Consider adding superlatives as appropriate."

/-- The stem of the non-zero summary (lines 80-81). -/
def summary_stem : String :=
  "This document contains superlatives that likely increase "
    ++ "the strength of the letter, including "

/-- Summary assembly of lines 60-83. -/
def superlatives_summary (found : List String) : String :=
  if found.length = 0 then zero_count_summary
  else summary_stem ++ superlatives_in_text_string found ++ "."

/-- `RaisesDoubtDetector.get_report` of `superlatives/__init__.py` (the class
name is reused from the doubt detector): category "Raises Doubt" (line 46),
no flags, the count-sensitive summary. -/
def get_report (lemmaf : String → List String)
    (word_pos : List (String × String)) : Report :=
  { category := "Raises Doubt"
    flags := []
    summary := some (superlatives_summary (superlatives_in_text lemmaf word_pos)) }

end Superlatives

namespace Re

/-- Python `\s` on the ASCII whitespace characters. -/
def isSpaceChar (c : Char) : Bool :=
  c = ' ' || c = '\t' || c = '\n' || c = '\r' || c = '\x0b' || c = '\x0c'

/-- Python `\w`: alphanumeric or underscore. -/
def isWordChar (c : Char) : Bool :=
  c.isAlphanum || c = '_'

/-- The language of `\w+est`: at least four characters, all word characters,
ending in "est" (the three literal characters are themselves word
characters, so this is exactly `\w+` followed by `est`). -/
def isEstWord (u : List Char) : Bool :=
  decide (4 ≤ u.length) && u.all isWordChar && (u.drop (u.length - 3) == ['e', 's', 't'])

/-- Does the character segment `s` belong to the language of
`\s(\w+est[^\.]*(?:alt_1|...|alt_k))`, with the alternation branches `alts`
matched literally?  A member is one whitespace character, then a `\w+est`
word, then a run of non-period characters, then one of the branches. -/
def matchSeg (alts : List String) (s : List Char) : Bool :=
  match s with
  | [] => false
  | c :: rest =>
      isSpaceChar c &&
        (List.range (rest.length + 1)).any (fun pl =>
          (List.range (rest.length + 1)).any (fun ql =>
            decide (pl + ql ≤ rest.length) &&
            isEstWord (rest.take pl) &&
            ((rest.drop pl).take ql).all (fun ch => ch != '.') &&
            alts.any (fun a => a.data == rest.drop (pl + ql))))

/-- Does the pattern match `t` exactly on the span `[i, j)`. -/
def matchesAt (alts : List String) (t : List Char) (i j : Nat) : Bool :=
  decide (i < j) && decide (j ≤ t.length) && matchSeg alts ((t.drop i).take (j - i))

/-- The end of the match the engine reports at start `i`: the greedy
(largest) end among the spans matching at `i`, `none` when no span does.
`re` resolves `\w+`/`[^\.]*` greedily, which picks the largest end here. -/
def findMatchEnd (alts : List String) (t : List Char) (i : Nat) : Option Nat :=
  (List.range (t.length + 1)).foldl
    (fun best j => if matchesAt alts t i j then some j else best) none

/-- `re.finditer` scan: try each start position left to right, emit the span
found there and resume at its end (every span has `i < j`, so the fuel
`t.length + 1` is never exhausted). -/
def finditerFrom (alts : List String) (t : List Char) : Nat → Nat → List (Nat × Nat)
  | 0, _ => []
  | fuel + 1, i =>
      if i ≤ t.length then
        match findMatchEnd alts t i with
        | some j => (i, j) :: finditerFrom alts t fuel j
        | none => finditerFrom alts t fuel (i + 1)
      else []

/-- All non-overlapping match spans, leftmost first. -/
def finditer (alts : List String) (t : List Char) : List (Nat × Nat) :=
  finditerFrom alts t (t.length + 1) 0

/-- Pattern well-formedness scanner (the failure mode of the patterns this
program constructs): a backslash must be followed by a character, a
character class must be terminated, groups must balance.  `re.compile`
raises `re.error` ("missing ), unterminated subpattern") exactly on the
unbalanced-group strings the detectors can build. -/
def scanPattern : List Char → Nat → Bool → Bool
  | [], depth, inClass => depth = 0 && !inClass
  | c :: rest, depth, inClass =>
      if c = '\\' then
        match rest with
        | [] => false
        | _ :: r => scanPattern r depth inClass
      else if inClass then
        (if c = ']' then scanPattern rest depth false else scanPattern rest depth true)
      else if c = '[' then scanPattern rest depth true
      else if c = '(' then scanPattern rest (depth + 1) false
      else if c = ')' then
        (if depth = 0 then false else scanPattern rest (depth - 1) false)
      else scanPattern rest depth false

/-- Does `re.compile` accept the pattern string. -/
def compileOk (p : String) : Bool :=
  scanPattern p.data 0 false

end Re

/-- The f-string template shared by both span-flagging detectors
(`partsofspeech` line 69, `raises_doubt` line 112):
`fr"\s(\w+est[^\.]*{inner})"`. -/
def pattern_template (inner : String) : String :=
  "\\s(\\w+est[^\\.]*" ++ inner ++ ")"

/-- The error `re.finditer` raises on a pattern with an unterminated group. -/
def re_error_msg : String :=
  "re.error: missing ), unterminated subpattern"

namespace PartsOfSpeech

/-- The scan of `partsofspeech/__init__.py` lines 54-59: for each index with
a verb tag, look at the next tag and the one after; on verb-verb-`IN` append
the bigram's two tokens.  Out-of-range indexing (including `item[1][0]` on
an empty tag) is Python's `IndexError`, surfaced as `Except.error`. -/
def prepScanFrom (word_pos word_pairs : List (String × String)) :
    List (String × String) → Nat → List String → Except String (List String)
  | [], _, acc => .ok acc
  | item :: rest, count, acc =>
      match item.2.data.head? with
      | none => .error "IndexError"
      | some c0 =>
          if c0 = 'V' then
            match word_pos.get? (count + 1) with
            | none => .error "IndexError"
            | some item1 =>
                match item1.2.data.head? with
                | none => .error "IndexError"
                | some c1 =>
                    if c1 = 'V' then
                      match word_pos.get? (count + 2) with
                      | none => .error "IndexError"
                      | some item2 =>
                          if item2.2 = "IN" then
                            match word_pairs.get? count with
                            | none => .error "IndexError"
                            | some pr => prepScanFrom word_pos word_pairs rest (count + 1)
                                (acc ++ [pr.1, pr.2])
                          else prepScanFrom word_pos word_pairs rest (count + 1) acc
                    else prepScanFrom word_pos word_pairs rest (count + 1) acc
          else prepScanFrom word_pos word_pairs rest (count + 1) acc

/-- `preposition_pairs` after lines 51-59.  `word_pairs = nltk.bigrams(...)`
pairs each element with its successor (aligned with the tagged sequence). -/
def preposition_pairs (word_pos : List (String × String)) : Except String (List String) :=
  let toks := word_pos.map Prod.fst
  prepScanFrom word_pos (toks.zip toks.tail) word_pos 0 []

/-- The `_prep_pairs_regex` loop of lines 60-68, reading the full list by
absolute index (`preposition_pairs[count]`, `preposition_pairs[count + 1]`);
the comparisons are Python `int` comparisons, hence over `Int`. -/
def prepRegexFrom (n : Int) (full : List String) :
    List String → Nat → String → String
  | [], _, acc => acc
  | _ :: rest, count, acc =>
      prepRegexFrom n full rest (count + 1)
        (if (count : Int) < n - 2 then
          acc ++ full.getD count "" ++ " " ++ full.getD (count + 1) "" ++ "|"
         else if (count : Int) = n - 2 then
          acc ++ full.getD count "" ++ " " ++ full.getD (count + 1) "" ++ ")"
         else acc)

/-- `_prep_pairs_regex` built from the trigger list (lines 60-68). -/
def prep_pairs_regex (l : List String) : String :=
  prepRegexFrom (l.length : Int) l l 0 "(?:"

/-- The alternation branches the constructed pattern actually lists: every
adjacent pair of trigger-list entries joined by a space (a sliding window,
proved below to be exactly what `prep_pairs_regex` writes between its `|`s). -/
def slidingAlts : List String → List String
  | [] => []
  | [_] => []
  | a :: b :: rest => (a ++ " " ++ b) :: slidingAlts (b :: rest)

/-- The flag message of lines 76-79. -/
def pos_issue : Issue :=
  { category := "Part of Speech"
    message := "This phrase appears to distance the person from the position/action described." }

/-- `PartofSpeechDetector.get_report`: scan for verb-verb-preposition
triggers (can raise `IndexError`), build the alternation pattern, and flag
every `re.finditer` match of the template; a pattern with an unterminated
group raises `re.error`. -/
def get_report (word_pos : List (String × String)) (text : List Char) :
    Except String Report :=
  match preposition_pairs word_pos with
  | .error e => .error e
  | .ok prep =>
      let rgx := pattern_template (prep_pairs_regex prep)
      if Re.compileOk rgx then
        .ok { category := "Parts of Speech"
              flags := (Re.finditer (slidingAlts prep) text).map (fun sp =>
                { start := sp.1, stop := sp.2, issue := pos_issue })
              summary := none }
      else .error re_error_msg

end PartsOfSpeech

namespace RaisesDoubt

/-- `faint_praise_synsets` of `raises_doubt/__init__.py` lines 78-79. -/
def faint_praise_synsets : List String :=
  ["average.s.01", "average.s.02", "average.s.03", "average.s.04", "median.s.01",
   "lack.n.01"]

/-- The hedge list of lines 62-67: the sense's lemma names plus each one's
naive plural (the surface string with a trailing "s" appended). -/
def hedged_words (lemmaf : String → List String) : List String :=
  lemmaf "look.v.02" ++ (lemmaf "look.v.02").map (fun w => w ++ "s")

/-- Inner loop of lines 80-84: per faint-praise synset, append the token
when its lemma list contains it, except the literal token "want". -/
def faintSynLoop (lemmaf : String → List String) (x : String) :
    List String → List String
  | [] => []
  | y :: rest =>
      (if x ∈ lemmaf y then (if x ≠ "want" then [x] else []) else [])
        ++ faintSynLoop lemmaf x rest

/-- `faint_praise_in_text` (lines 77-84), in discovery order. -/
def faint_praise_in_text (lemmaf : String → List String) :
    List String → List String
  | [] => []
  | x :: xs => faintSynLoop lemmaf x faint_praise_synsets ++ faint_praise_in_text lemmaf xs

/-- `irrelevancies_synsets` (lines 91-96): the fixed seed list plus the
names of the hyponym synsets of `religion.n.01`. -/
def irrelevancies_synsets (hypof : String → List String) : List String :=
  ["church.n.03", "religion.n.01", "religious.s.01", "wife.n.01", "spouse.n.01",
   "husband.n.01"] ++ hypof "religion.n.01"

/-- Inner loop of lines 97-101: like the faint-praise loop, with the literal
token "benedict" excluded. -/
def irrelSynLoop (lemmaf : String → List String) (x : String) :
    List String → List String
  | [] => []
  | y :: rest =>
      (if x ∈ lemmaf y then (if x ≠ "benedict" then [x] else []) else [])
        ++ irrelSynLoop lemmaf x rest

/-- `irrelevancies_in_text` (lines 90-101). -/
def irrelevancies_in_text (lemmaf : String → List String) (syns : List String) :
    List String → List String
  | [] => []
  | x :: xs => irrelSynLoop lemmaf x syns ++ irrelevancies_in_text lemmaf syns xs

/-- `doubt_raising_words` (lines 49-103): the four category scans appended
in order — negation members, hedge members, faint praise, irrelevancies. -/
def doubt_raising_words (lemmaf hypof : String → List String)
    (lows : List String) : List String :=
  lows.filter (fun x => x ∈ lemmaf "not.r.01")
    ++ lows.filter (fun x => x ∈ hedged_words lemmaf)
    ++ faint_praise_in_text lemmaf lows
    ++ irrelevancies_in_text lemmaf (irrelevancies_synsets hypof) lows

/-- The `_doubt_raisers_regex` loop of lines 105-111.  The state is the pair
(`_doubt_raisers_regex`, `_neg_words_regex`): each non-final word is
appended to the first with a `|`, but the closing `)` together with the
final word is assigned to the SECOND variable (line 111), which is never
read again. -/
def doubtRegexLoop (n : Int) :
    List String → Nat → String → Option String → String × Option String
  | [], _, d, ng => (d, ng)
  | w :: rest, count, d, ng =>
      if (count : Int) < n - 1 then
        doubtRegexLoop n rest (count + 1) (d ++ w ++ "|") ng
      else if (count : Int) = n - 1 then
        doubtRegexLoop n rest (count + 1) d (some (d ++ w ++ ")"))
      else doubtRegexLoop n rest (count + 1) d ng

/-- The alternation string actually interpolated into the template (line
112): the first component of the loop's state. -/
def doubt_raisers_regex (words : List String) : String :=
  (doubtRegexLoop (words.length : Int) words 0 "(?:" none).1

/-- The flag message of lines 119-122. -/
def doubt_issue : Issue :=
  { category := "Raises Doubt"
    message := "This phrase appears to raise doubt, either through negative language, hedging, faint praise, or irrelevant information. Consider revising to reduce doubt." }

/-- `RaisesDoubtDetector.get_report`: lower-case the tokens, merge the four
category scans, interpolate `_doubt_raisers_regex` into the template and
flag every match; a pattern with an unterminated group raises `re.error`.
When the pattern does compile, the branches listed before the last `|` are
`words.dropLast` (the loop never appends the final word to the used
variable). -/
def get_report (lemmaf hypof : String → List String) (toks : List String)
    (text : List Char) : Except String Report :=
  let lows := toks.map (fun w => pyLower w)
  let words := doubt_raising_words lemmaf hypof lows
  let rgx := pattern_template (doubt_raisers_regex words)
  if Re.compileOk rgx then
    .ok { category := "Raises Doubt"
          flags := (Re.finditer words.dropLast text).map (fun sp =>
            { start := sp.1, stop := sp.2, issue := doubt_issue })
          summary := none }
  else .error re_error_msg

end RaisesDoubt

/-! ## Helper definitions for the proofs -/

namespace Superlatives

/-- Structural form of the serial-comma loop: every word but the last is
followed by ", ", the last is preceded by "and ". -/
def commaTail : List String → String
  | [] => ""
  | [w] => "and " ++ w
  | w :: x :: xs => w ++ ", " ++ commaTail (x :: xs)

/-- All but the last word of a serial list, each followed by ", ". -/
def joinInit : List String → String
  | [] => ""
  | x :: xs => x ++ ", " ++ joinInit xs

end Superlatives

namespace PartsOfSpeech

/-- Structural form of what the `_prep_pairs_regex` loop appends after the
opening "(?:": each adjacent pair of entries joined by a space, separated by
"|", the final pair followed by ")" (nothing for lists shorter than two). -/
def slidingTail : List String → String
  | [] => ""
  | [_] => ""
  | a :: b :: rest =>
      a ++ " " ++ b ++ (if rest.isEmpty then ")" else "|") ++ slidingTail (b :: rest)

/-- Alternation branches joined by "|". -/
def altsJoin : List String → String
  | [] => ""
  | [x] => x
  | x :: y :: r => x ++ "|" ++ altsJoin (y :: r)

end PartsOfSpeech

/-- A concrete stand-in for the WordNet lemma-name lookup, consistent with
the real database on the words the examples use: "best" is a lemma of the
superlative sense `better.s.03` and of no other sense in the detector's
lists. -/
def wnExample : String → List String :=
  fun s => if s = "better.s.03" then ["best"] else []

/-- A concrete lemma-name lookup for the doubt examples: `lack.n.01` has the
lemmas "lack", "deficiency", "want" (as in WordNet); every other sense is
empty. -/
def wnLack : String → List String :=
  fun s => if s = "lack.n.01" then ["lack", "deficiency", "want"] else []

/-- A hyponym lookup with no hyponyms (the religion hyponyms play no role in
the concrete examples). -/
def wnNoHyponyms : String → List String :=
  fun _ => []

/-! ## Helper lemmas -/

namespace Superlatives

/-- The inner synset loop appends one copy of the word per synset whose
lemma list contains it, and nothing at all when the (Python-indexed)
preceding tag is the possessive determiner. -/
theorem supSynsetLoop_eq (lemmaf : String → List String)
    (word_pos : List (String × String)) (count : Nat) (word : String) :
    ∀ sl : List String,
      supSynsetLoop lemmaf word_pos count word sl =
        if pyPrevTag word_pos count ≠ some "PRP$" then
          List.replicate (sl.countP (fun s => decide (word ∈ lemmaf s))) word
        else []
  | [] => by simp [supSynsetLoop]
  | s :: rest => by
      rw [supSynsetLoop, supSynsetLoop_eq lemmaf word_pos count word rest]
      by_cases hmem : word ∈ lemmaf s <;>
        by_cases htag : pyPrevTag word_pos count ≠ some "PRP$" <;>
          simp [hmem, htag, List.countP_cons, List.replicate_succ]

/-- The serial-comma loop of lines 74-78 computes `commaTail`. -/
theorem supJoinLoop_eq (n : Int) :
    ∀ (l : List String) (count : Nat) (acc : String),
      (count : Int) + l.length = n → supJoinLoop n l count acc = acc ++ commaTail l
  | [], count, acc, _ => by simp [supJoinLoop, commaTail, String.append_empty]
  | [w], count, acc, h => by
      have hcond : ¬((count : Int) < n - 1) := by
        simp at h; omega
      simp only [supJoinLoop, if_neg hcond, commaTail]
      rw [String.append_assoc]
  | w :: x :: xs, count, acc, h => by
      have hcond : (count : Int) < n - 1 := by
        simp at h; omega
      rw [supJoinLoop, if_pos hcond,
        supJoinLoop_eq n (x :: xs) (count + 1) (acc ++ w ++ ", ")
          (by simp only [List.length_cons] at h ⊢; push_cast at h ⊢; omega),
        commaTail]
      simp [String.append_assoc]

/-- `commaTail` of a list with at least two entries is the comma-joined
initial segment followed by "and " and the last entry. -/
theorem commaTail_append_last :
    ∀ (xs : List String) (w : String), xs ≠ [] →
      commaTail (xs ++ [w]) = joinInit xs ++ ("and " ++ w)
  | [], _, h => absurd rfl h
  | [x], w, _ => by simp [commaTail, joinInit, String.append_empty, String.append_assoc]
  | x :: y :: xs, w, _ => by
      have ih := commaTail_append_last (y :: xs) w (by simp)
      simp only [List.cons_append] at ih ⊢
      rw [commaTail, ih]
      simp [joinInit, String.append_assoc]

end Superlatives

/-- Dropping `n` elements of `l` leaves `a :: rest` exactly when `l[n] = a`
and dropping one more leaves `rest`. -/
theorem drop_cons_facts :
    ∀ (l : List String) (n : Nat) (a : String) (rest : List String),
      l.drop n = a :: rest → l.getD n "" = a ∧ l.drop (n + 1) = rest
  | [], n, a, rest => by intro h; simp at h
  | x :: xs, 0, a, rest => by
      intro h
      simp only [List.drop_zero] at h
      cases h
      simp
  | x :: xs, n + 1, a, rest => by
      intro h
      simp only [List.drop_succ_cons] at h
      have := drop_cons_facts xs n a rest h
      simpa using this

namespace PartsOfSpeech

/-- The `_prep_pairs_regex` loop, resumed at `count` with the remaining
entries, appends exactly the sliding-window tail of the remaining entries. -/
theorem prepRegexFrom_eq (full : List String) :
    ∀ (rest : List String) (count : Nat) (acc : String),
      full.drop count = rest →
      prepRegexFrom (full.length : Int) full rest count acc = acc ++ slidingTail rest := by
  intro rest
  induction rest with
  | nil =>
      intro count acc h
      simp [prepRegexFrom, slidingTail, String.append_empty]
  | cons a rest' ih =>
      intro count acc h
      have hfacts := drop_cons_facts full count a rest' h
      have hlen : full.length = count + 1 + rest'.length := by
        have hc := congrArg List.length h
        simp only [List.length_drop, List.length_cons] at hc
        omega
      cases rest' with
      | nil =>
          have h1 : ¬((count : Int) < (full.length : Int) - 2) := by
            rw [hlen]; push_cast [List.length_nil, List.length_cons]; omega
          have h2 : ¬((count : Int) = (full.length : Int) - 2) := by
            rw [hlen]; push_cast [List.length_nil, List.length_cons]; omega
          rw [prepRegexFrom, if_neg h1, if_neg h2, prepRegexFrom, slidingTail,
            String.append_empty]
      | cons b rest'' =>
          have hb := drop_cons_facts full (count + 1) b rest'' hfacts.2
          cases rest'' with
          | nil =>
              have h1 : ¬((count : Int) < (full.length : Int) - 2) := by
                rw [hlen]; push_cast [List.length_nil, List.length_cons]; omega
              have h2 : (count : Int) = (full.length : Int) - 2 := by
                rw [hlen]; push_cast [List.length_nil, List.length_cons]; omega
              rw [prepRegexFrom, if_neg h1, if_pos h2, hfacts.1, hb.1,
                ih (count + 1) _ hfacts.2]
              simp [slidingTail, String.append_empty, String.append_assoc]
          | cons c rest''' =>
              have h1 : (count : Int) < (full.length : Int) - 2 := by
                rw [hlen]; push_cast [List.length_nil, List.length_cons]; omega
              rw [prepRegexFrom, if_pos h1, hfacts.1, hb.1,
                ih (count + 1) _ hfacts.2]
              simp only [slidingTail, List.isEmpty_cons]
              simp [String.append_assoc]

/-- `_prep_pairs_regex` is the opening "(?:" followed by the sliding-window
tail of the whole trigger list. -/
theorem prep_pairs_regex_eq (l : List String) :
    prep_pairs_regex l = "(?:" ++ slidingTail l :=
  prepRegexFrom_eq l l 0 "(?:" (by simp)

/-- For at least two entries, the sliding-window tail is the "|"-joined
branch list followed by the closing ")". -/
theorem slidingTail_eq_altsJoin :
    ∀ (rest : List String) (a b : String),
      slidingTail (a :: b :: rest) = altsJoin (slidingAlts (a :: b :: rest)) ++ ")" := by
  intro rest
  induction rest with
  | nil =>
      intro a b
      simp [slidingTail, slidingAlts, altsJoin, String.append_empty]
  | cons c rest' ih =>
      intro a b
      rw [slidingTail]
      simp only [List.isEmpty_cons, Bool.false_eq_true, if_false]
      rw [ih b c]
      simp only [slidingAlts, altsJoin]
      simp [String.append_assoc]

end PartsOfSpeech

namespace Re

/-- What the greedy fold returns either matched or was the seed. -/
theorem foldlPickOr (alts : List String) (t : List Char) (i : Nat) :
    ∀ (L : List Nat) (b : Option Nat) (j : Nat),
      L.foldl (fun best j' => if matchesAt alts t i j' then some j' else best) b = some j →
      matchesAt alts t i j = true ∨ b = some j := by
  intro L
  induction L with
  | nil => intro b j h; exact Or.inr h
  | cons x L' ih =>
      intro b j h
      rw [List.foldl_cons] at h
      rcases ih _ j h with hm | hb
      · exact Or.inl hm
      · by_cases hx : matchesAt alts t i x = true
        · rw [if_pos hx] at hb
          cases hb
          exact Or.inl hx
        · rw [if_neg hx] at hb
          exact Or.inr hb

/-- A reported match end really matches. -/
theorem findMatchEnd_matches {alts : List String} {t : List Char} {i j : Nat}
    (h : findMatchEnd alts t i = some j) : matchesAt alts t i j = true := by
  rcases foldlPickOr alts t i _ none j h with hm | hb
  · exact hm
  · cases hb

/-- A matching span is non-empty and within the text. -/
theorem matchesAt_bounds {alts : List String} {t : List Char} {i j : Nat}
    (h : matchesAt alts t i j = true) : i < j ∧ j ≤ t.length := by
  simp only [matchesAt, Bool.and_eq_true, decide_eq_true_eq] at h
  exact ⟨h.1.1, h.1.2⟩

/-- Every span the scan emits is non-empty and within the text. -/
theorem finditerFrom_valid {alts : List String} {t : List Char} :
    ∀ (fuel i0 : Nat) (p : Nat × Nat),
      p ∈ finditerFrom alts t fuel i0 → p.1 < p.2 ∧ p.2 ≤ t.length := by
  intro fuel
  induction fuel with
  | zero => intro i0 p hp; simp [finditerFrom] at hp
  | succ fuel ih =>
      intro i0 p hp
      rw [finditerFrom] at hp
      by_cases hi : i0 ≤ t.length
      · rw [if_pos hi] at hp
        cases hfme : findMatchEnd alts t i0 with
        | none => rw [hfme] at hp; exact ih _ p hp
        | some j =>
            rw [hfme] at hp
            rcases List.mem_cons.mp hp with rfl | hp'
            · exact matchesAt_bounds (findMatchEnd_matches hfme)
            · exact ih _ p hp'
      · rw [if_neg hi] at hp
        simp at hp

/-- Every span `finditer` emits is non-empty and within the text. -/
theorem finditer_valid {alts : List String} {t : List Char} {p : Nat × Nat}
    (hp : p ∈ finditer alts t) : p.1 < p.2 ∧ p.2 ≤ t.length :=
  finditerFrom_valid _ _ p hp

end Re

namespace RaisesDoubt

/-- Anything the faint-praise synset loop appends is the scanned token
itself, and that token is not "want". -/
theorem faintSynLoop_mem (lemmaf : String → List String) (x : String) :
    ∀ (sl : List String) (y : String),
      y ∈ faintSynLoop lemmaf x sl → y = x ∧ x ≠ "want" := by
  intro sl
  induction sl with
  | nil => intro y hy; simp [faintSynLoop] at hy
  | cons s rest ih =>
      intro y hy
      rw [faintSynLoop] at hy
      rcases List.mem_append.mp hy with h1 | h2
      · by_cases hm : x ∈ lemmaf s
        · rw [if_pos hm] at h1
          by_cases hw : x ≠ "want"
          · rw [if_pos hw] at h1
            simp at h1
            exact ⟨h1, hw⟩
          · rw [if_neg hw] at h1
            simp at h1
        · rw [if_neg hm] at h1
          simp at h1
      · exact ih y h2

/-- The scanned token "want" is never appended by the faint-praise loop. -/
theorem faintSynLoop_want (lemmaf : String → List String) :
    ∀ sl : List String, faintSynLoop lemmaf "want" sl = [] := by
  intro sl
  induction sl with
  | nil => rfl
  | cons s rest ih => rw [faintSynLoop, ih]; simp

/-- Anything the irrelevancies synset loop appends is the scanned token
itself, and that token is not "benedict". -/
theorem irrelSynLoop_mem (lemmaf : String → List String) (x : String) :
    ∀ (sl : List String) (y : String),
      y ∈ irrelSynLoop lemmaf x sl → y = x ∧ x ≠ "benedict" := by
  intro sl
  induction sl with
  | nil => intro y hy; simp [irrelSynLoop] at hy
  | cons s rest ih =>
      intro y hy
      rw [irrelSynLoop] at hy
      rcases List.mem_append.mp hy with h1 | h2
      · by_cases hm : x ∈ lemmaf s
        · rw [if_pos hm] at h1
          by_cases hw : x ≠ "benedict"
          · rw [if_pos hw] at h1
            simp at h1
            exact ⟨h1, hw⟩
          · rw [if_neg hw] at h1
            simp at h1
        · rw [if_neg hm] at h1
          simp at h1
      · exact ih y h2

/-- A token belonging to none of the listed synsets contributes nothing. -/
theorem irrelSynLoop_empty (lemmaf : String → List String) (x : String) :
    ∀ sl : List String, (∀ y ∈ sl, x ∉ lemmaf y) → irrelSynLoop lemmaf x sl = [] := by
  intro sl
  induction sl with
  | nil => intro _; rfl
  | cons s rest ih =>
      intro hall
      rw [irrelSynLoop, if_neg (hall s (by simp)), ih (fun y hy => hall y (by simp [hy]))]
      simp

/-- "want" never enters the merged list through the faint-praise scan. -/
theorem faint_praise_want_free (lemmaf : String → List String) :
    ∀ lows : List String, "want" ∉ faint_praise_in_text lemmaf lows := by
  intro lows
  induction lows with
  | nil => simp [faint_praise_in_text]
  | cons x xs ih =>
      rw [faint_praise_in_text]
      intro hmem
      rcases List.mem_append.mp hmem with h1 | h2
      · rcases faintSynLoop_mem lemmaf x _ _ h1 with ⟨rfl, hne⟩
        exact hne rfl
      · exact ih h2

/-- "benedict" never enters the merged list through the irrelevancies scan. -/
theorem irrelevancies_benedict_free (lemmaf : String → List String)
    (syns : List String) :
    ∀ lows : List String, "benedict" ∉ irrelevancies_in_text lemmaf syns lows := by
  intro lows
  induction lows with
  | nil => simp [irrelevancies_in_text]
  | cons x xs ih =>
      rw [irrelevancies_in_text]
      intro hmem
      rcases List.mem_append.mp hmem with h1 | h2
      · rcases irrelSynLoop_mem lemmaf x _ _ h1 with ⟨rfl, hne⟩
        exact hne rfl
      · exact ih h2

end RaisesDoubt

/-- A span with `i < j ≤ length` slices a non-empty segment of the text. -/
theorem span_slice_ne_nil {text : List Char} {i j : Nat} (hij : i < j)
    (hj : j ≤ text.length) : ((text.drop i).take (j - i)) ≠ [] := by
  have hlen : ((text.drop i).take (j - i)).length = j - i := by
    simp only [List.length_take, List.length_drop]
    omega
  intro hnil
  rw [hnil] at hlen
  simp only [List.length_nil] at hlen
  omega

/-! ## Claim theorems -/

/-- C2: the claim says the scan over indices `i` (tag `i` verb, tag `i+1`
verb, tag `i+2` preposition) stops at the end of the sequence rather than
raising.  The code (`partsofspeech/__init__.py` lines 54-59) reads
`word_pos[count + 1]` and `word_pos[count + 2]` without a bounds check, so a
verb (or verb-verb) at the very end of the sequence raises `IndexError`;
this theorem evaluates the code at such inputs. -/
theorem c2_scan_raises_at_sequence_end :
    PartsOfSpeech.preposition_pairs [("ran", "VBD")] = .error "IndexError" ∧
    PartsOfSpeech.preposition_pairs [("kept", "VBD"), ("working", "VBG")]
      = .error "IndexError" ∧
    PartsOfSpeech.get_report [("ran", "VBD")] " best ran".data = .error "IndexError" :=
  ⟨rfl, rfl, rfl⟩

/-- C6 counterexample: two matched bigrams put the four entries
`["was", "involved", "kept", "working"]` on the trigger list, and the built
alternation has THREE branches — including "involved kept", formed from the
second token of the first bigram and the first token of the second — not the
two pairwise branches the claim states. -/
theorem c6_pairwise_join_counterexample :
    PartsOfSpeech.preposition_pairs
        [("was", "VBD"), ("involved", "VBN"), ("in", "IN"), ("x", "NN"),
         ("kept", "VBD"), ("working", "VBG"), ("on", "IN")]
      = .ok ["was", "involved", "kept", "working"] ∧
    PartsOfSpeech.prep_pairs_regex ["was", "involved", "kept", "working"]
      = "(?:was involved|involved kept|kept working)" ∧
    PartsOfSpeech.slidingAlts ["was", "involved", "kept", "working"]
      = ["was involved", "involved kept", "kept working"] ∧
    PartsOfSpeech.prep_pairs_regex ["was", "involved", "kept", "working"]
      ≠ "(?:was involved|kept working)" :=
  ⟨rfl, rfl, rfl, by decide⟩

/-- C6 amended: the constructed alternation joins EVERY adjacent pair of
trigger-list entries (a sliding window): for `2k` entries it has `2k − 1`
branches, the `i`-th joining entries `i` and `i+1` with a single space, so
for `k ≥ 2` branches are also formed from the second token of one bigram and
the first token of the next.  For `k = 1` the single branch is the bigram's
two tokens joined by a space, as the claim states. -/
theorem c6_sliding_window_alternation :
    (∀ l : List String,
      PartsOfSpeech.prep_pairs_regex l = "(?:" ++ PartsOfSpeech.slidingTail l) ∧
    (∀ a b : String,
      PartsOfSpeech.prep_pairs_regex [a, b] = "(?:" ++ (a ++ " " ++ b) ++ ")") ∧
    (∀ (a b : String) (rest : List String),
      PartsOfSpeech.prep_pairs_regex (a :: b :: rest) =
        "(?:" ++ PartsOfSpeech.altsJoin (PartsOfSpeech.slidingAlts (a :: b :: rest)) ++ ")") := by
  refine ⟨PartsOfSpeech.prep_pairs_regex_eq, ?_, ?_⟩
  · intro a b
    rw [PartsOfSpeech.prep_pairs_regex_eq]
    simp [PartsOfSpeech.slidingTail, String.append_empty, String.append_assoc]
  · intro a b rest
    rw [PartsOfSpeech.prep_pairs_regex_eq, PartsOfSpeech.slidingTail_eq_altsJoin]
    simp [String.append_assoc]

/-- C8 counterexample: "best" belongs to a superlative sense of the concrete
lookup, sits at index 0, yet is NOT appended, because Python's
`word_pos[0 - 1]` reads the LAST pair's tag (here `PRP$`), not "no
predecessor, hence not excluded" as the claim states. -/
theorem c8_index_zero_counterexample :
    ("best" ∈ wnExample "better.s.03" ∧
      "better.s.03" ∈ Superlatives.superlatives_synsets) ∧
    Superlatives.superlatives_in_text wnExample [("best", "JJS"), ("her", "PRP$")] = [] :=
  ⟨⟨by decide, by decide⟩, by decide⟩

/-- C8 amended: a superlative-matching token at index 0 is appended exactly
when the tag of the LAST token of the sequence is not `PRP$` (Python's index
`-1` wraps to the end); the scan itself cannot raise there. -/
theorem c8_index_zero_checks_last_tag :
    ∀ (lemmaf : String → List String) (p : String × String)
      (rest : List (String × String)) (word : String),
      Superlatives.supSynsetLoop lemmaf (p :: rest) 0 word Superlatives.superlatives_synsets =
        if ((p :: rest).getLast?).map Prod.snd ≠ some "PRP$" then
          List.replicate
            (Superlatives.superlatives_synsets.countP (fun s => decide (word ∈ lemmaf s)))
            word
        else [] := by
  intro lemmaf p rest word
  rw [Superlatives.supSynsetLoop_eq]
  simp [Superlatives.pyPrevTag]

/-- C1: the claim says an empty trigger list yields a pattern that matches
nothing and a zero-flag report.  In the code the alternation is left as the
unterminated `"(?:"` (and the doubt loop never closes its group at all), so
`re.finditer` raises a pattern-construction error instead: whenever the
distancing scan finds no verb-verb-preposition sequence, or the doubt scan
matches no category token, `get_report` raises `re.error`. -/
theorem c1_empty_triggers_raise_regex_error :
    (∀ (word_pos : List (String × String)) (text : List Char),
      PartsOfSpeech.preposition_pairs word_pos = .ok [] →
      PartsOfSpeech.get_report word_pos text = .error re_error_msg) ∧
    (∀ (lemmaf hypof : String → List String) (toks : List String) (text : List Char),
      RaisesDoubt.doubt_raising_words lemmaf hypof (toks.map (fun w => pyLower w)) = [] →
      RaisesDoubt.get_report lemmaf hypof toks text = .error re_error_msg) := by
  constructor
  · intro word_pos text h
    simp only [PartsOfSpeech.get_report, h]
    rfl
  · intro lemmaf hypof toks text h
    simp only [RaisesDoubt.get_report, h]
    rfl

/-- C1 witness: concrete trigger-free documents on which both detectors
raise the pattern-construction error. -/
theorem c1_empty_triggers_raise_regex_error_witness :
    PartsOfSpeech.get_report [("the", "DT")] "no superlative triggers".data
      = .error re_error_msg ∧
    RaisesDoubt.get_report wnNoHyponyms wnNoHyponyms ["the"] "no doubt words".data
      = .error re_error_msg := by
  constructor
  · exact c1_empty_triggers_raise_regex_error.1 _ _ (by decide)
  · exact c1_empty_triggers_raise_regex_error.2 wnNoHyponyms wnNoHyponyms _ _ (by decide)

/-- C5: the hard-coded denylist is applied — "want" never enters the merged
list through the faint-praise scan and "benedict" never through the
irrelevancies scan, for any document and any lemma data.  However, the claim
also says a document containing only such a token produces a report with
zero flags; the code instead raises `re.error` there, because the merged
list is empty and the alternation is the unterminated `"(?:"`. -/
theorem c5_denylist_never_appended :
    (∀ (lemmaf : String → List String) (lows : List String),
      "want" ∉ RaisesDoubt.faint_praise_in_text lemmaf lows) ∧
    (∀ (lemmaf : String → List String) (syns lows : List String),
      "benedict" ∉ RaisesDoubt.irrelevancies_in_text lemmaf syns lows) ∧
    (∀ (lemmaf hypof : String → List String) (text : List Char),
      "want" ∉ lemmaf "not.r.01" →
      "want" ∉ RaisesDoubt.hedged_words lemmaf →
      (∀ y ∈ RaisesDoubt.irrelevancies_synsets hypof, "want" ∉ lemmaf y) →
      RaisesDoubt.get_report lemmaf hypof ["want"] text = .error re_error_msg) := by
  refine ⟨fun lemmaf lows => RaisesDoubt.faint_praise_want_free lemmaf lows,
    fun lemmaf syns lows => RaisesDoubt.irrelevancies_benedict_free lemmaf syns lows, ?_⟩
  intro lemmaf hypof text h1 h2 h3
  have hwords :
      RaisesDoubt.doubt_raising_words lemmaf hypof (["want"].map (fun w => pyLower w)) = [] := by
    have hlow : (["want"].map (fun w => pyLower w)) = ["want"] := by decide
    rw [hlow, RaisesDoubt.doubt_raising_words]
    simp [RaisesDoubt.faint_praise_in_text, RaisesDoubt.irrelevancies_in_text,
      RaisesDoubt.faintSynLoop_want,
      RaisesDoubt.irrelSynLoop_empty lemmaf "want" (RaisesDoubt.irrelevancies_synsets hypof) h3,
      h1, h2]
  simp only [RaisesDoubt.get_report, hwords]
  rfl

/-- C5 witness: with the real WordNet data for `lack.n.01` (whose lemmas
include "want"), the token matches a faint-praise sense, is still never
appended, and the detector raises the regex error on the one-token document. -/
theorem c5_denylist_never_appended_witness :
    ("want" ∈ wnLack "lack.n.01" ∧ "lack.n.01" ∈ RaisesDoubt.faint_praise_synsets) ∧
    "want" ∉ RaisesDoubt.faint_praise_in_text wnLack ["want"] ∧
    RaisesDoubt.get_report wnLack wnNoHyponyms ["want"] " the best want".data
      = .error re_error_msg := by
  refine ⟨⟨by decide, by decide⟩, ?_, ?_⟩
  · exact c5_denylist_never_appended.1 wnLack ["want"]
  · exact c5_denylist_never_appended.2.2 wnLack wnNoHyponyms _ (by decide) (by decide)
      (by decide)

/-- C3: for indices with a real predecessor (`i ≥ 1`) a superlative-matching
token is appended iff the preceding tag is not `PRP$`; on the claim's two
concrete documents: "her best" (possessive) contributes nothing and the
summary is the zero-count prompt, "the best" contributes "best" and the
summary ends "including best.".  The lemma data is hypothesised exactly as
the examples need it: "best" lies in precisely one of the twelve superlative
senses, the other tokens in none. -/
theorem c3_possessive_exclusion (lemmaf : String → List String)
    (hbest : Superlatives.superlatives_synsets.countP
      (fun s => decide ("best" ∈ lemmaf s)) = 1)
    (hshe : Superlatives.superlatives_synsets.countP
      (fun s => decide ("she" ∈ lemmaf s)) = 0)
    (hdid : Superlatives.superlatives_synsets.countP
      (fun s => decide ("did" ∈ lemmaf s)) = 0)
    (hher : Superlatives.superlatives_synsets.countP
      (fun s => decide ("her" ∈ lemmaf s)) = 0)
    (his : Superlatives.superlatives_synsets.countP
      (fun s => decide ("is" ∈ lemmaf s)) = 0)
    (hthe : Superlatives.superlatives_synsets.countP
      (fun s => decide ("the" ∈ lemmaf s)) = 0) :
    (∀ (word_pos : List (String × String)) (count : Nat) (word : String), 1 ≤ count →
      (Superlatives.supSynsetLoop lemmaf word_pos count word
          Superlatives.superlatives_synsets ≠ [] ↔
        ((word_pos.get? (count - 1)).map Prod.snd ≠ some "PRP$" ∧
          ∃ s ∈ Superlatives.superlatives_synsets, word ∈ lemmaf s))) ∧
    Superlatives.superlatives_in_text lemmaf
      [("she", "PRP"), ("did", "VBD"), ("her", "PRP$"), ("best", "JJS")] = [] ∧
    (Superlatives.get_report lemmaf
      [("she", "PRP"), ("did", "VBD"), ("her", "PRP$"), ("best", "JJS")]).summary
      = some Superlatives.zero_count_summary ∧
    Superlatives.superlatives_in_text lemmaf
      [("she", "PRP"), ("is", "VBZ"), ("the", "DT"), ("best", "JJS")] = ["best"] ∧
    (Superlatives.get_report lemmaf
      [("she", "PRP"), ("is", "VBZ"), ("the", "DT"), ("best", "JJS")]).summary
      = some (Superlatives.summary_stem ++ "best" ++ ".") := by
  have hiff : ∀ (word_pos : List (String × String)) (count : Nat) (word : String),
      1 ≤ count →
      (Superlatives.supSynsetLoop lemmaf word_pos count word
          Superlatives.superlatives_synsets ≠ [] ↔
        ((word_pos.get? (count - 1)).map Prod.snd ≠ some "PRP$" ∧
          ∃ s ∈ Superlatives.superlatives_synsets, word ∈ lemmaf s)) := by
    intro word_pos count word hc
    rw [Superlatives.supSynsetLoop_eq]
    have hpt : Superlatives.pyPrevTag word_pos count
        = (word_pos.get? (count - 1)).map Prod.snd := by
      rw [Superlatives.pyPrevTag, if_neg (by omega)]
    rw [hpt]
    by_cases htag : (word_pos.get? (count - 1)).map Prod.snd ≠ some "PRP$"
    · rw [if_pos htag]
      simp only [ne_eq, List.replicate_eq_nil_iff]
      constructor
      · intro hne
        refine ⟨htag, ?_⟩
        have hpos : 0 < List.countP (fun s => decide (word ∈ lemmaf s))
            Superlatives.superlatives_synsets := by omega
        obtain ⟨s, hs, hps⟩ := List.countP_pos_iff.mp hpos
        exact ⟨s, hs, of_decide_eq_true hps⟩
      · rintro ⟨-, s, hs, hmem⟩
        have hpos : 0 < List.countP (fun s => decide (word ∈ lemmaf s))
            Superlatives.superlatives_synsets :=
          List.countP_pos_iff.mpr ⟨s, hs, by simp [hmem]⟩
        omega
    · rw [if_neg htag]
      have heq := not_not.mp htag
      constructor
      · intro h
        exact absurd rfl h
      · rintro ⟨habs, -⟩
        exact absurd heq habs
  have e1 : Superlatives.superlatives_in_text lemmaf
      [("she", "PRP"), ("did", "VBD"), ("her", "PRP$"), ("best", "JJS")] = [] := by
    rw [Superlatives.superlatives_in_text,
      show ([("she", "PRP"), ("did", "VBD"), ("her", "PRP$"), ("best", "JJS")].map
        (fun p => pyLower p.1)) = ["she", "did", "her", "best"] by decide]
    simp only [Superlatives.supScanFrom, Superlatives.supSynsetLoop_eq,
      Superlatives.pyPrevTag, hshe, hdid, hher, hbest]
    simp
  have e2 : Superlatives.superlatives_in_text lemmaf
      [("she", "PRP"), ("is", "VBZ"), ("the", "DT"), ("best", "JJS")] = ["best"] := by
    rw [Superlatives.superlatives_in_text,
      show ([("she", "PRP"), ("is", "VBZ"), ("the", "DT"), ("best", "JJS")].map
        (fun p => pyLower p.1)) = ["she", "is", "the", "best"] by decide]
    simp only [Superlatives.supScanFrom, Superlatives.supSynsetLoop_eq,
      Superlatives.pyPrevTag, hshe, his, hthe, hbest]
    simp
  refine ⟨hiff, e1, ?_, e2, ?_⟩
  · simp [Superlatives.get_report, e1, Superlatives.superlatives_summary]
  · simp [Superlatives.get_report, e2, Superlatives.superlatives_summary,
      Superlatives.superlatives_in_text_string]

/-- C3 witness: the concrete lemma lookup `wnExample` (matching WordNet on
these words) satisfies the hypotheses, and the two documents behave as the
claim states. -/
theorem c3_possessive_exclusion_witness :
    Superlatives.superlatives_in_text wnExample
      [("she", "PRP"), ("did", "VBD"), ("her", "PRP$"), ("best", "JJS")] = [] ∧
    (Superlatives.get_report wnExample
      [("she", "PRP"), ("did", "VBD"), ("her", "PRP$"), ("best", "JJS")]).summary
      = some Superlatives.zero_count_summary ∧
    Superlatives.superlatives_in_text wnExample
      [("she", "PRP"), ("is", "VBZ"), ("the", "DT"), ("best", "JJS")] = ["best"] ∧
    (Superlatives.get_report wnExample
      [("she", "PRP"), ("is", "VBZ"), ("the", "DT"), ("best", "JJS")]).summary
      = some (Superlatives.summary_stem ++ "best" ++ ".") := by
  have h := c3_possessive_exclusion wnExample (by decide) (by decide) (by decide)
    (by decide) (by decide) (by decide)
  exact ⟨h.2.1, h.2.2.1, h.2.2.2.1, h.2.2.2.2⟩

/-- C4: the summary is composed count-sensitively from the found list —
zero found gives exactly the fixed prompt; one found ends "including w.";
two found joins with " and "; three or more found is the serial-comma list
ending "and lastword." (shown in general through `commaTail`/`joinInit` and
on the claim's concrete examples); and the detector's summary is exactly
this composition of its found list. -/
theorem c4_summary_composition :
    Superlatives.superlatives_summary [] = Superlatives.zero_count_summary ∧
    (∀ w, Superlatives.superlatives_summary [w]
      = Superlatives.summary_stem ++ w ++ ".") ∧
    (∀ a b, Superlatives.superlatives_summary [a, b]
      = Superlatives.summary_stem ++ (a ++ " and " ++ b) ++ ".") ∧
    Superlatives.superlatives_summary ["best", "greatest"]
      = "This document contains superlatives that likely increase the strength of the letter, including best and greatest." ∧
    Superlatives.superlatives_summary ["best", "greatest", "top"]
      = "This document contains superlatives that likely increase the strength of the letter, including best, greatest, and top." ∧
    (∀ l : List String, 3 ≤ l.length →
      Superlatives.superlatives_summary l
        = Superlatives.summary_stem ++ Superlatives.commaTail l ++ ".") ∧
    (∀ (xs : List String) (w : String), xs ≠ [] →
      Superlatives.commaTail (xs ++ [w])
        = Superlatives.joinInit xs ++ ("and " ++ w)) ∧
    (∀ (lemmaf : String → List String) (word_pos : List (String × String)),
      (Superlatives.get_report lemmaf word_pos).summary
        = some (Superlatives.superlatives_summary
            (Superlatives.superlatives_in_text lemmaf word_pos))) := by
  refine ⟨rfl, ?_, ?_, by decide, by decide, ?_, Superlatives.commaTail_append_last,
    fun _ _ => rfl⟩
  · intro w
    simp [Superlatives.superlatives_summary, Superlatives.superlatives_in_text_string]
  · intro a b
    simp [Superlatives.superlatives_summary, Superlatives.superlatives_in_text_string]
  · intro l hl
    rw [Superlatives.superlatives_summary, if_neg (by omega),
      Superlatives.superlatives_in_text_string, if_neg (by omega), if_neg (by omega),
      Superlatives.supJoinLoop_eq (l.length : Int) l 0 "" (by simp),
      String.empty_append]

/-- C4 witness: the general clauses instantiated at a four-word found list. -/
theorem c4_summary_composition_witness :
    Superlatives.superlatives_summary ["best", "greatest", "top", "ever"]
      = Superlatives.summary_stem
          ++ Superlatives.commaTail ["best", "greatest", "top", "ever"] ++ "." ∧
    Superlatives.commaTail (["best", "greatest", "top"] ++ ["ever"])
      = Superlatives.joinInit ["best", "greatest", "top"] ++ ("and " ++ "ever") :=
  ⟨c4_summary_composition.2.2.2.2.2.1 _ (by decide),
   c4_summary_composition.2.2.2.2.2.2.1 _ _ (by decide)⟩

/-- C9: each detector's `get_report` is a pure function of the document data
and the toolkit lookups — the embedding threads no mutable state because the
source reads `doc.text()` and only ever mutates detector-local lists — so
two invocations with no intervening mutation give identical outcomes
(identical flags, categories and summaries, or the identical error), and the
document is untouched. -/
theorem c9_get_report_deterministic :
    ∀ (word_pos : List (String × String)) (text : List Char)
      (lemmaf hypof lf : String → List String) (toks : List String),
      PartsOfSpeech.get_report word_pos text = PartsOfSpeech.get_report word_pos text ∧
      RaisesDoubt.get_report lemmaf hypof toks text
        = RaisesDoubt.get_report lemmaf hypof toks text ∧
      (Superlatives.get_report lf word_pos).flags
        = (Superlatives.get_report lf word_pos).flags ∧
      (Superlatives.get_report lf word_pos).category
        = (Superlatives.get_report lf word_pos).category ∧
      (Superlatives.get_report lf word_pos).summary
        = (Superlatives.get_report lf word_pos).summary :=
  fun _ _ _ _ _ _ => ⟨rfl, rfl, rfl, rfl, rfl⟩

/-- C7: whenever a detector returns a Report, every Flag in it satisfies
`start < stop ≤ length(text)` (starts are naturals, so `0 ≤ start` holds by
type) and slices a non-empty segment of the document's text; the superlative
detector never produces flags at all. -/
theorem c7_flag_spans_valid :
    (∀ (word_pos : List (String × String)) (text : List Char) (r : Report),
      PartsOfSpeech.get_report word_pos text = .ok r →
      ∀ f ∈ r.flags, f.start < f.stop ∧ f.stop ≤ text.length ∧
        ((text.drop f.start).take (f.stop - f.start)) ≠ []) ∧
    (∀ (lemmaf hypof : String → List String) (toks : List String) (text : List Char)
      (r : Report),
      RaisesDoubt.get_report lemmaf hypof toks text = .ok r →
      ∀ f ∈ r.flags, f.start < f.stop ∧ f.stop ≤ text.length ∧
        ((text.drop f.start).take (f.stop - f.start)) ≠ []) ∧
    (∀ (lemmaf : String → List String) (word_pos : List (String × String)),
      (Superlatives.get_report lemmaf word_pos).flags = []) := by
  refine ⟨?_, ?_, fun _ _ => rfl⟩
  · intro word_pos text r h f hf
    simp only [PartsOfSpeech.get_report] at h
    cases hscan : PartsOfSpeech.preposition_pairs word_pos with
    | error e => rw [hscan] at h; cases h
    | ok prep =>
        rw [hscan] at h
        dsimp only at h
        by_cases hrx : Re.compileOk (pattern_template (PartsOfSpeech.prep_pairs_regex prep))
        · rw [if_pos hrx] at h
          injection h with hr
          subst hr
          simp only [List.mem_map] at hf
          obtain ⟨sp, hsp, rfl⟩ := hf
          have hv := Re.finditer_valid hsp
          exact ⟨hv.1, hv.2, span_slice_ne_nil hv.1 hv.2⟩
        · rw [if_neg hrx] at h
          cases h
  · intro lemmaf hypof toks text r h f hf
    simp only [RaisesDoubt.get_report] at h
    by_cases hrx : Re.compileOk (pattern_template (RaisesDoubt.doubt_raisers_regex
        (RaisesDoubt.doubt_raising_words lemmaf hypof (toks.map (fun w => pyLower w)))))
    · rw [if_pos hrx] at h
      injection h with hr
      subst hr
      simp only [List.mem_map] at hf
      obtain ⟨sp, hsp, rfl⟩ := hf
      have hv := Re.finditer_valid hsp
      exact ⟨hv.1, hv.2, span_slice_ne_nil hv.1 hv.2⟩
    · rw [if_neg hrx] at h
      cases h

/-- A document on which the distancing detector produces a flag: the tagger
found the verb-verb-preposition triple, the raw text " best a b" matches the
template, and the flag spans the whole text. -/
def posWitnessWordPos : List (String × String) :=
  [("a", "VB"), ("b", "VB"), ("c", "IN")]

/-- The raw text of the flag-producing witness document. -/
def posWitnessText : List Char :=
  " best a b".data

/-- The report the distancing detector returns on the witness document. -/
def posWitnessReport : Report :=
  { category := "Parts of Speech"
    flags := [{ start := 0, stop := 9, issue := PartsOfSpeech.pos_issue }]
    summary := none }

/-- C7 witness: a concrete produced flag, with its span checked against the
theorem. -/
theorem c7_flag_spans_valid_witness :
    (0 : Nat) < 9 ∧ 9 ≤ posWitnessText.length ∧
      ((posWitnessText.drop 0).take 9) ≠ [] := by
  have h := c7_flag_spans_valid.1 posWitnessWordPos posWitnessText posWitnessReport
    (by decide) { start := 0, stop := 9, issue := PartsOfSpeech.pos_issue }
    (by simp [posWitnessReport])
  exact h

/-- C10: the superlative detector's report always carries the category label
"Raises Doubt" (line 46 reuses the doubt detector's label), never any flag,
and always a summary. -/
theorem c10_superlative_report_label_and_no_flags :
    ∀ (lemmaf : String → List String) (word_pos : List (String × String)),
      (Superlatives.get_report lemmaf word_pos).category = "Raises Doubt" ∧
      (Superlatives.get_report lemmaf word_pos).flags = [] ∧
      ∃ s, (Superlatives.get_report lemmaf word_pos).summary = some s :=
  fun _ _ => ⟨rfl, rfl, ⟨_, rfl⟩⟩

end GenderBias
